import Mathlib

/-
  Verification of the table-extraction engine of src/app.py.

  The program scans spreadsheet grids for tables announced by an all-caps
  header cell, validates the header, resolves the rectangular extent of the
  data block beneath it, and materializes named rows with numeric values.

  Shallow embedding conventions:
  - A raw cell value is CellValue: absent (blank), a number, or a string.
    openpyxl reports blank cells as None, xlrd as the empty string; both are
    falsy in Python, which is what every check in the source relies on, and
    both behave identically throughout (truthy, convert_to_float, the header
    candidate test), so one constructor CellValue.none models the blank case
    and CellValue.str "" is an equally valid encoding of an xlrd blank.
  - Python float values are modelled as rationals; all arithmetic performed
    by the source (division by 100, summation) is exact on the inputs the
    claims exercise, so no rounding behaviour is lost.
  - Python str.isupper, str.strip, str.upper, str.replace and the in
    operator are modelled directly on the character list of the string, on
    the ASCII alphabet (Char.isUpper, Char.isLower, Char.isWhitespace),
    matching the data the program is designed for.
  - Loops bounded by max_row / max_column become structural recursion on an
    explicit fuel equal to the number of remaining iterations.
-/

attribute [local semireducible] Rat.mul Rat.inv

/-- Raw content of one spreadsheet cell: blank, numeric, or text. -/
inductive CellValue where
  | none : CellValue
  | num : ℚ → CellValue
  | str : String → CellValue
deriving DecidableEq, Repr

/-- Python truthiness of a cell value as used in every `if cell.value:` test
of the source: None is falsy, a number is falsy iff it is zero, a string is
falsy iff it is empty. -/
def truthy : CellValue → Bool
  | CellValue.none => false
  | CellValue.num q => decide (q ≠ 0)
  | CellValue.str s => !(s == "")

/-- Leading whitespace of a character list removed (model of one side of
Python str.strip). -/
def dropWS : List Char → List Char
  | [] => []
  | c :: cs => if c.isWhitespace then dropWS cs else c :: cs

/-- Python str.strip: whitespace removed from both ends. -/
def pyStrip (s : String) : String :=
  String.mk ((dropWS ((dropWS s.data).reverse)).reverse)

/-- Python str.upper on the ASCII alphabet. -/
def pyUpper (s : String) : String :=
  String.mk (s.data.map Char.toUpper)

/-- Python membership test of a single character in a string. -/
def pyContains (s : String) (c : Char) : Bool :=
  s.data.contains c

/-- Python str.replace of one character by the empty string, the only form
of replace the source uses. -/
def removeChar (s : String) (c : Char) : String :=
  String.mk (s.data.filter (fun x => !(x == c)))

/-- A character that Python regards as cased (ASCII model). -/
def isCased (c : Char) : Bool := c.isUpper || c.isLower

/-- Python str.isupper: the string has at least one cased character and no
lowercase character (ASCII model). Note that this is false for strings made
only of digits or punctuation. -/
def pyIsUpper (s : String) : Bool :=
  s.data.any isCased && s.data.all (fun c => !c.isLower)

/-- The header-candidate filter of app.py lines 77-78 and 143-144:
cell.value is truthy, is a string, satisfies isupper, and equals its own
strip. -/
def headerCandidateB : CellValue → Bool
  | CellValue.str s => !(s == "") && (pyIsUpper s && (pyStrip s == s))
  | _ => false

/-- Header-candidate condition transcribed from the words of the spec
(section 4.2): the value is a string, non-empty after trimming, and its
trimmed value equals its own uppercased form. Used only to compare the spec
against headerCandidateB, which is the condition found in the source. -/
def specHeaderCandidate : CellValue → Bool
  | CellValue.str s => !(pyStrip s == "") && (pyStrip s == pyUpper (pyStrip s))
  | _ => false

/-- Digits of a numeral folded into a natural number. -/
def digitsVal (cs : List Char) : Nat :=
  cs.foldl (fun a c => a * 10 + (c.toNat - 48)) 0

/-- Longest leading run of decimal digits of a character list, together with
the remainder. -/
def takeDigits : List Char → List Char × List Char
  | [] => ([], [])
  | c :: cs =>
    if c.isDigit then
      let p := takeDigits cs
      (c :: p.1, p.2)
    else ([], c :: cs)

/-- Optional leading sign of a numeral. -/
def parseSign : List Char → ℚ × List Char
  | '+' :: cs => (1, cs)
  | '-' :: cs => (-1, cs)
  | cs => (1, cs)

/-- Unsigned decimal mantissa: digits, optionally followed by a point and
further digits; at least one digit must be present overall. -/
def parseUnsigned (cs : List Char) : Option (ℚ × List Char) :=
  let p := takeDigits cs
  match p.2 with
  | '.' :: r2 =>
    let q := takeDigits r2
    if p.1.isEmpty && q.1.isEmpty then Option.none
    else Option.some ((digitsVal p.1 : ℚ) + (digitsVal q.1 : ℚ) / (10 ^ q.1.length), q.2)
  | _ => if p.1.isEmpty then Option.none else Option.some ((digitsVal p.1 : ℚ), p.2)

/-- Optional exponent part: the letter e or E, an optional sign, and at
least one digit. Returns the signed exponent and the remainder. -/
def parseExp (cs : List Char) : Option (Int × List Char) :=
  match cs with
  | 'e' :: r | 'E' :: r =>
    let sg : Int × List Char :=
      match r with
      | '+' :: cs2 => (1, cs2)
      | '-' :: cs2 => (-1, cs2)
      | cs2 => (1, cs2)
    let d := takeDigits sg.2
    if d.1.isEmpty then Option.none else Option.some (sg.1 * (digitsVal d.1 : Int), d.2)
  | _ => Option.some (0, cs)

/-- Application of a decimal exponent to a mantissa, exactly on rationals. -/
def applyExp (m : ℚ) (e : Int) : ℚ :=
  if 0 ≤ e then m * 10 ^ e.toNat else m / 10 ^ (-e).toNat

/-- Model of the Python builtin float(string) on its decimal core: optional
surrounding whitespace, optional sign, decimal mantissa, optional exponent.
Any other shape (including the inf and nan spellings and underscore digit
separators, which never arise in the data of this program) fails, exactly as
the ValueError branches of the source turn failure into None. -/
def pyFloat (s : String) : Option ℚ :=
  let cs := (pyStrip s).data
  let sg := parseSign cs
  match parseUnsigned sg.2 with
  | Option.none => Option.none
  | Option.some m =>
    match parseExp m.2 with
    | Option.none => Option.none
    | Option.some e =>
      if e.2.isEmpty then Option.some (sg.1 * applyExp m.1 e.1) else Option.none

/-- app.py lines 42-63, convert_to_float: None stays None, numbers are kept,
strings are stripped and parsed after removing a percent sign (dividing by
100) or a dollar sign and comma separators; any parse failure yields None. -/
def convert_to_float : CellValue → Option ℚ
  | CellValue.none => Option.none
  | CellValue.num q => Option.some q
  | CellValue.str s0 =>
    let s := pyStrip s0
    if pyContains s '%' then (pyFloat (removeChar s '%')).map (fun q => q / 100)
    else if pyContains s '$' then pyFloat (removeChar (removeChar s '$') ',')
    else pyFloat s

example : convert_to_float (CellValue.str "45%") = Option.some (45 / 100) := by decide
example : convert_to_float (CellValue.str "$1,200") = Option.some 1200 := by decide
example : convert_to_float (CellValue.str "abc") = Option.none := by decide
example : convert_to_float (CellValue.num 7) = Option.some 7 := by decide
example : headerCandidateB (CellValue.str "REVENUE") = true := by decide
example : headerCandidateB (CellValue.str "123") = false := by decide
example : specHeaderCandidate (CellValue.str "123") = true := by decide

/-- Read-only accessor view of one sheet, the interface both worksheet
objects of the source expose: cell value by position plus the row and
column extents. The xlsx path addresses it 1-indexed, the xls path
0-indexed through cellAtX below. -/
structure GridView where
  maxRow : Nat
  maxCol : Nat
  cell : Nat → Nat → CellValue

/-- Concrete sheet data: a list of rows of cell values, with the declared
extents carried alongside, as a loaded workbook holds them. -/
structure Grid where
  maxRow : Nat
  maxCol : Nat
  cells : List (List CellValue)
deriving DecidableEq, Repr

/-- Cell of a concrete grid at a 1-indexed position; anything outside the
stored lists is blank. -/
def Grid.cellAt (g : Grid) (r c : Nat) : CellValue :=
  ((g.cells.getD (r - 1) []).getD (c - 1) CellValue.none)

/-- The accessor view of a concrete grid. -/
def Grid.view (g : Grid) : GridView :=
  GridView.mk g.maxRow g.maxCol (fun r c => g.cellAt r c)

/-- The list a Python range(a, b) iterates over. -/
def pyRange (a b : Nat) : List Nat :=
  (List.range (b - a)).map (a + ·)

/-- Loop of app.py lines 216-220 (and 253-258, 279-283): does any cell of
row r over columns 1..max_column hold a truthy value. -/
def rowHasData (g : GridView) (r : Nat) : Bool :=
  (pyRange 1 (g.maxCol + 1)).any (fun c => truthy (g.cell r c))

/-- Length of the leading run of falsy values, the count the empty_adjacent
loop of app.py lines 203-208 accumulates before its break. -/
def countLeadingEmpty : List CellValue → Nat
  | [] => 0
  | v :: rest => if truthy v then 0 else countLeadingEmpty rest + 1

/-- The empty_adjacent count of is_valid_table_header: consecutive empty
cells to the right of (r, c), scanning at most columns c+1 .. c+3 clamped
to the grid width. -/
def emptyAdjacent (g : GridView) (r c : Nat) : Nat :=
  countLeadingEmpty ((pyRange (c + 1) (min (c + 4) (g.maxCol + 1))).map (g.cell r))

/-- app.py lines 198-222, is_valid_table_header: the cell to the left must
be empty (or the cell is in column 1), at least two consecutive empty cells
must follow to the right, and the row immediately below must exist and hold
some data. -/
def is_valid_table_header (g : GridView) (r c : Nat) : Bool :=
  if decide (1 < c) && truthy (g.cell r (c - 1)) then false
  else if emptyAdjacent g r c < 2 then false
  else if decide (g.maxRow < r + 1) then false
  else rowHasData g (r + 1)

/-- Loop of app.py lines 268-275: does row r contain a cell that passes both
the header-candidate filter and is_valid_table_header. -/
def rowStartsTable (g : GridView) (r : Nat) : Bool :=
  (pyRange 1 (g.maxCol + 1)).any
    (fun c => headerCandidateB (g.cell r c) && is_valid_table_header g r c)

/-- Loop of app.py lines 252-261: first row at or below r that is not fully
empty, None when the sheet ends first. Fuel counts the rows not yet past
max_row. -/
def findDataStartAux (g : GridView) : Nat → Nat → Option Nat
  | 0, _ => Option.none
  | f + 1, r => if rowHasData g r then Option.some r else findDataStartAux g f (r + 1)

/-- Loop of app.py lines 266-287: advance end_row from the data start while
the row neither starts a new table nor is fully empty; returns the exclusive
stopping row. Fuel counts the rows not yet past max_row. -/
def findEndRowAux (g : GridView) : Nat → Nat → Nat
  | 0, e => e
  | f + 1, e =>
    if rowStartsTable g e then e
    else if rowHasData g e then findEndRowAux g f (e + 1) else e

/-- Loop of app.py lines 293-297: does column c hold a truthy value in some
row of d..e. -/
def colHasData (g : GridView) (d e c : Nat) : Bool :=
  (pyRange d (e + 1)).any (fun r => truthy (g.cell r c))

/-- Loop of app.py lines 291-300: extend end_col rightward from the header
column while the column has data in the resolved row range; acc is the last
column accepted so far. -/
def findEndColAux (g : GridView) (d e : Nat) : Nat → Nat → Nat → Nat
  | 0, _, acc => acc
  | f + 1, col, acc =>
    if colHasData g d e col then findEndColAux g d e f (col + 1) col else acc

/-- app.py lines 250-302, find_table_boundaries: data start row, end row
(clamped to max_row) and end column for the table below header (sr, sc);
None when no non-empty row follows the header. -/
def find_table_boundaries (g : GridView) (sr sc : Nat) : Option (Nat × Nat × Nat) :=
  match findDataStartAux g (g.maxRow + 1 - (sr + 1)) (sr + 1) with
  | Option.none => Option.none
  | Option.some d =>
    let e := min (findEndRowAux g (g.maxRow + 1 - d) d - 1) g.maxRow
    Option.some (d, e, findEndColAux g d e (g.maxCol + 1 - sc) sc sc)

/-- openpyxl get_column_letter: bijective base-26 column naming A, B, ...,
Z, AA, AB, ... Fuel recursion; the quotient shrinks strictly, so fuel n
always suffices. -/
def colLetterAux : Nat → Nat → String
  | 0, _ => ""
  | _ + 1, 0 => ""
  | f + 1, n + 1 => colLetterAux f (n / 26) ++ String.mk [Char.ofNat (65 + n % 26)]

/-- Column letter of a 1-indexed column number. -/
def colLetter (n : Nat) : String :=
  colLetterAux n n

example : colLetter 1 = "A" := by decide
example : colLetter 3 = "C" := by decide
example : colLetter 26 = "Z" := by decide
example : colLetter 28 = "AB" := by decide
example : colLetter 703 = "AAA" := by decide

/-- Python str() applied to a cell value that reaches str(row_cells[0]) in
the source. Exact on text cells, the only case a data row of this program's
format produces, since a truthy first cell naming a row is text; numeric
cells are rendered from the rational model (integral values without the
trailing .0 that CPython prints for floats, others as num/den). -/
def pyStr : CellValue → String
  | CellValue.str s => s
  | CellValue.num q =>
    if q.den == 1 then toString q.num else toString q.num ++ "/" ++ toString q.den
  | CellValue.none => "None"

/-- Python dict insertion d[k] = v: an existing key keeps its place and gets
the new value, a new key is appended. -/
def dictInsert {α : Type} (l : List (String × α)) (k : String) (v : α) : List (String × α) :=
  if l.any (fun p => p.1 == k) then l.map (fun p => if p.1 == k then (k, v) else p)
  else l ++ [(k, v)]

/-- Python dict lookup d.get(k). -/
def dictGet {α : Type} (l : List (String × α)) (k : String) : Option α :=
  (l.find? (fun p => p.1 == k)).map (fun p => p.2)

/-- One extracted row: app.py lines 15-18. -/
structure TableRow where
  name : String
  values : List (Option ℚ)
  location : String
deriving DecidableEq, Repr

/-- One extracted table: app.py lines 20-27; start_col and end_col are
column letters as the source stores them. -/
structure TableData where
  name : String
  sheet : String
  start_row : Nat
  end_row : Nat
  start_col : String
  end_col : String
  rows : List (String × TableRow)
deriving DecidableEq, Repr

/-- Row materialization loop of app.py lines 94-111: for each row of the
resolved range, read the cells across the column range, drop the row when
its first cell is falsy, otherwise record the trimmed name, the coerced
remaining values and the location of the first cell. -/
def extractRows (g : GridView) (d e sc ec : Nat) : List (String × TableRow) :=
  (pyRange d (e + 1)).foldl
    (fun rows r =>
      match (pyRange sc (ec + 1)).map (g.cell r) with
      | [] => rows
      | v0 :: rest =>
        if truthy v0 then
          let rname := pyStrip (pyStr v0)
          dictInsert rows rname
            (TableRow.mk rname (rest.map convert_to_float) (colLetter sc ++ toString r))
        else rows)
    []

/-- Body of the cell scan of app.py lines 76-122: if the cell is a header
candidate that validates, resolve boundaries, extract rows, and insert the
table into the accumulator when any row survived. -/
def scanCell (g : GridView) (sheetName : String)
    (acc : List (String × TableData)) (r c : Nat) : List (String × TableData) :=
  if headerCandidateB (g.cell r c) then
    if is_valid_table_header g r c then
      match find_table_boundaries g r c with
      | Option.none => acc
      | Option.some (d, e, ec) =>
        if (extractRows g d e c ec).isEmpty then acc
        else
          dictInsert acc (pyStrip (pyStr (g.cell r c)))
            (TableData.mk (pyStrip (pyStr (g.cell r c))) sheetName d e
              (colLetter c) (colLetter ec) (extractRows g d e c ec))
    else acc
  else acc

/-- Scan of one sheet, app.py lines 75-122: every cell in row-major order,
rows 1..max_row, columns 1..max_column. -/
def processSheet (g : GridView) (sheetName : String)
    (acc : List (String × TableData)) : List (String × TableData) :=
  (pyRange 1 (g.maxRow + 1)).foldl
    (fun a r => (pyRange 1 (g.maxCol + 1)).foldl (fun a2 c => scanCell g sheetName a2 r c) a)
    acc

/-- Table accumulation of process_xlsx_file across all sheets of the
workbook, app.py lines 69-122: one tables dict shared by every sheet. -/
def processXlsxSheets (sheets : List (String × GridView)) : List (String × TableData) :=
  sheets.foldl (fun acc p => processSheet p.2 p.1 acc) []

/-- app.py lines 66-129, process_xlsx_file, modulo the byte-level concerns
the grid abstraction excludes: the returned record carries the sheet-name
list and the extracted tables (the content hash is a fingerprint of raw
bytes outside the grid model and is not represented). -/
structure UploadedFileM where
  filename : String
  sheets : List String
  tables : List (String × TableData)
deriving DecidableEq, Repr

/-- Assembly of the result record of process_xlsx_file. -/
def process_xlsx_file (filename : String) (wb : List (String × GridView)) : UploadedFileM :=
  UploadedFileM.mk filename (wb.map (fun p => p.1)) (processXlsxSheets wb)

/-- Scenario A sheet exactly as the spec describes it: header REVENUE at
row 1 column 1 with two blank cells to its right, row 2 entirely blank,
row 3 = Q1, 100, 200, row 4 = Q2, 150, blank, row 5 blank. -/
def gridA : Grid :=
  Grid.mk 5 3
    [[CellValue.str "REVENUE", CellValue.none, CellValue.none],
     [CellValue.none, CellValue.none, CellValue.none],
     [CellValue.str "Q1", CellValue.num 100, CellValue.num 200],
     [CellValue.str "Q2", CellValue.num 150, CellValue.none],
     [CellValue.none, CellValue.none, CellValue.none]]

/-- Scenario A sheet with the blank spacer row removed, so that the row
immediately below the header holds data: data rows at rows 2 and 3. -/
def gridA2 : Grid :=
  Grid.mk 4 3
    [[CellValue.str "REVENUE", CellValue.none, CellValue.none],
     [CellValue.str "Q1", CellValue.num 100, CellValue.num 200],
     [CellValue.str "Q2", CellValue.num 150, CellValue.none],
     [CellValue.none, CellValue.none, CellValue.none]]

/-- Scenario B sheet: REVENUE at row 1 with data rows 2..4, a blank
separator row 5, COSTS at row 6 with a data row 7. -/
def gridB : Grid :=
  Grid.mk 7 3
    [[CellValue.str "REVENUE", CellValue.none, CellValue.none],
     [CellValue.str "Q1", CellValue.num 100, CellValue.num 200],
     [CellValue.str "Q2", CellValue.num 150, CellValue.num 250],
     [CellValue.str "Q3", CellValue.num 120, CellValue.num 220],
     [CellValue.none, CellValue.none, CellValue.none],
     [CellValue.str "COSTS", CellValue.none, CellValue.none],
     [CellValue.str "C1", CellValue.num 50, CellValue.num 60]]

/-- Scenario C sheet: the all-caps candidate TOTAL has only one blank cell
to its right before non-empty content, and a data row below. -/
def gridC : Grid :=
  Grid.mk 2 3
    [[CellValue.str "TOTAL", CellValue.none, CellValue.str "x"],
     [CellValue.str "a", CellValue.num 1, CellValue.none]]

/-- The xls path of the source addresses the same logical sheet 0-indexed
through xlrd: cell_value(r, c) of the xlrd sheet is the cell at 1-indexed
position (r+1, c+1), nrows is max_row and ncols is max_col. This accessor
is that index translation. -/
def cellAtX (g : GridView) (r c : Nat) : CellValue :=
  g.cell (r + 1) (c + 1)

/-- Loop of app.py lines 242-246 (and 308-313, 333-337): does any cell of
0-indexed row r over columns range(ncols) hold a truthy value. -/
def rowHasDataX (g : GridView) (r : Nat) : Bool :=
  (pyRange 0 g.maxCol).any (fun c => truthy (cellAtX g r c))

/-- The empty_adjacent count of is_valid_xls_table_header, app.py lines
229-234: columns range(col+1, min(col+4, ncols)). -/
def emptyAdjacentX (g : GridView) (r c : Nat) : Nat :=
  countLeadingEmpty ((pyRange (c + 1) (min (c + 4) g.maxCol)).map (cellAtX g r))

/-- app.py lines 224-248, is_valid_xls_table_header: the 0-indexed twin of
is_valid_table_header. -/
def is_valid_xls_table_header (g : GridView) (r c : Nat) : Bool :=
  if decide (0 < c) && truthy (cellAtX g r (c - 1)) then false
  else if emptyAdjacentX g r c < 2 then false
  else if decide (g.maxRow ≤ r + 1) then false
  else rowHasDataX g (r + 1)

/-- Loop of app.py lines 322-329: does 0-indexed row r contain a cell that
passes the candidate filter and is_valid_xls_table_header. -/
def rowStartsTableX (g : GridView) (r : Nat) : Bool :=
  (pyRange 0 g.maxCol).any
    (fun c => headerCandidateB (cellAtX g r c) && is_valid_xls_table_header g r c)

/-- Loop of app.py lines 306-315: 0-indexed twin of findDataStartAux; the
while guard is row < nrows, so fuel is nrows - row. -/
def findDataStartAuxX (g : GridView) : Nat → Nat → Option Nat
  | 0, _ => Option.none
  | f + 1, r => if rowHasDataX g r then Option.some r else findDataStartAuxX g f (r + 1)

/-- Loop of app.py lines 320-341: 0-indexed twin of findEndRowAux. -/
def findEndRowAuxX (g : GridView) : Nat → Nat → Nat
  | 0, e => e
  | f + 1, e =>
    if rowStartsTableX g e then e
    else if rowHasDataX g e then findEndRowAuxX g f (e + 1) else e

/-- Loop of app.py lines 347-351: 0-indexed twin of colHasData. -/
def colHasDataX (g : GridView) (d e c : Nat) : Bool :=
  (pyRange d (e + 1)).any (fun r => truthy (cellAtX g r c))

/-- Loop of app.py lines 345-354: 0-indexed twin of findEndColAux over
range(start_col, ncols). -/
def findEndColAuxX (g : GridView) (d e : Nat) : Nat → Nat → Nat → Nat
  | 0, _, acc => acc
  | f + 1, col, acc =>
    if colHasDataX g d e col then findEndColAuxX g d e f (col + 1) col else acc

/-- app.py lines 304-356, find_xls_table_boundaries: 0-indexed twin of
find_table_boundaries, with the end row clamped to nrows - 1. -/
def find_xls_table_boundaries (g : GridView) (sr sc : Nat) : Option (Nat × Nat × Nat) :=
  match findDataStartAuxX g (g.maxRow - (sr + 1)) (sr + 1) with
  | Option.none => Option.none
  | Option.some d =>
    let e := min (findEndRowAuxX g (g.maxRow - d) d - 1) (g.maxRow - 1)
    Option.some (d, e, findEndColAuxX g d e (g.maxCol - sc) sc sc)

/-- Row materialization loop of app.py lines 160-177: 0-indexed cells, with
the location rendered from the 1-indexed position (start_col + 1, row + 1). -/
def extractRowsX (g : GridView) (d e sc ec : Nat) : List (String × TableRow) :=
  (pyRange d (e + 1)).foldl
    (fun rows r =>
      match (pyRange sc (ec + 1)).map (cellAtX g r) with
      | [] => rows
      | v0 :: rest =>
        if truthy v0 then
          let rname := pyStrip (pyStr v0)
          dictInsert rows rname
            (TableRow.mk rname (rest.map convert_to_float)
              (colLetter (sc + 1) ++ toString (r + 1)))
        else rows)
    []

/-- Body of the cell scan of app.py lines 142-188: the xls twin of
scanCell; the stored bounds are shifted back to 1-indexed form. -/
def scanCellX (g : GridView) (sheetName : String)
    (acc : List (String × TableData)) (r c : Nat) : List (String × TableData) :=
  if headerCandidateB (cellAtX g r c) then
    if is_valid_xls_table_header g r c then
      match find_xls_table_boundaries g r c with
      | Option.none => acc
      | Option.some (d, e, ec) =>
        if (extractRowsX g d e c ec).isEmpty then acc
        else
          dictInsert acc (pyStrip (pyStr (cellAtX g r c)))
            (TableData.mk (pyStrip (pyStr (cellAtX g r c))) sheetName (d + 1) (e + 1)
              (colLetter (c + 1)) (colLetter (ec + 1)) (extractRowsX g d e c ec))
    else acc
  else acc

/-- Scan of one sheet in the xls path, app.py lines 140-188: every cell of
range(nrows) x range(ncols) in row-major order. -/
def processSheetX (g : GridView) (sheetName : String)
    (acc : List (String × TableData)) : List (String × TableData) :=
  (pyRange 0 g.maxRow).foldl
    (fun a r => (pyRange 0 g.maxCol).foldl (fun a2 c => scanCellX g sheetName a2 r c) a)
    acc

/-- Table accumulation of process_xls_file across all sheets, app.py lines
135-188. -/
def processXlsSheets (sheets : List (String × GridView)) : List (String × TableData) :=
  sheets.foldl (fun acc p => processSheetX p.2 p.1 acc) []

/-- app.py lines 131-195, process_xls_file, under the same grid abstraction
as process_xlsx_file. -/
def process_xls_file (filename : String) (wb : List (String × GridView)) : UploadedFileM :=
  UploadedFileM.mk filename (wb.map (fun p => p.1)) (processXlsSheets wb)

/-- Sheet with two valid headers of the same name REVENUE at rows 1 and 4,
each followed by its own non-empty data block. -/
def gridD : Grid :=
  Grid.mk 5 3
    [[CellValue.str "REVENUE", CellValue.none, CellValue.none],
     [CellValue.str "A", CellValue.num 1, CellValue.none],
     [CellValue.none, CellValue.none, CellValue.none],
     [CellValue.str "REVENUE", CellValue.none, CellValue.none],
     [CellValue.str "B", CellValue.num 2, CellValue.none]]

/-- Sheet whose only all-caps-shaped candidate is the digits-only string
123, laid out exactly like a valid table header with a data row below. -/
def grid123 : Grid :=
  Grid.mk 2 3
    [[CellValue.str "123", CellValue.none, CellValue.none],
     [CellValue.str "a", CellValue.num 1, CellValue.none]]

/-- Body of the row_value response of app.py lines 455-477 except for the
value field, which the endpoint computes by cases on row.values. -/
structure RowValueResponse where
  table_name : String
  row_name : String
  value : Option ℚ
  sheet : String
  location : String
deriving DecidableEq, Repr

/-- app.py lines 440-477, the row_value endpoint over the in-memory file
store: 404 when the file, table or row is missing; value None for an empty
values list, the single entry itself for a one-element list, and otherwise
the sum of the non-None entries. -/
def get_row_value (store : List (String × UploadedFileM))
    (file_id table_name row_name : String) : Except Nat RowValueResponse :=
  match dictGet store file_id with
  | Option.none => Except.error 404
  | Option.some uploaded_file =>
    match dictGet uploaded_file.tables table_name with
    | Option.none => Except.error 404
    | Option.some table =>
      match dictGet table.rows row_name with
      | Option.none => Except.error 404
      | Option.some row =>
        if row.values.isEmpty then
          Except.ok (RowValueResponse.mk table_name row_name Option.none table.sheet row.location)
        else
          Except.ok (RowValueResponse.mk table_name row_name
            (if row.values.length = 1 then row.values.headD Option.none
             else Option.some ((row.values.filterMap id).sum))
            table.sheet row.location)

/-- C6: value coercion: coerce of the string 45% is 0.45, of the string
$1,200 is 1200, of the string abc is none, of a blank cell is none, and of
the number 7 is 7; malformed numeric strings such as 12x and $$ also coerce
to none. convert_to_float is a total Lean function into Option, mirroring
how every ValueError branch of the source returns None instead of raising. -/
theorem c6_convert_to_float_cases :
    convert_to_float (CellValue.str "45%") = Option.some (45 / 100) ∧
    convert_to_float (CellValue.str "$1,200") = Option.some 1200 ∧
    convert_to_float (CellValue.str "abc") = Option.none ∧
    convert_to_float CellValue.none = Option.none ∧
    convert_to_float (CellValue.num 7) = Option.some 7 ∧
    convert_to_float (CellValue.str "12x") = Option.none ∧
    convert_to_float (CellValue.str "$$") = Option.none := by
  decide

/-- C1 counterexample: on the Scenario A sheet exactly as the claim lays it
out, extraction returns no table at all, because the REVENUE header fails
validation: the row immediately below it (row 2) is entirely blank, and
is_valid_table_header requires that row to hold data. -/
theorem c1_counterexample :
    processXlsxSheets [("Sheet1", gridA.view)] = [] ∧
    is_valid_table_header gridA.view 1 1 = false := by
  decide

/-- C1 amended: the Scenario A sheet yields an empty catalog (the header is
rejected because row 2 is blank); with the blank spacer row removed, so the
same data sits at rows 2 and 3, extraction returns exactly one table named
REVENUE with rows Q1 = [100, 200] and Q2 = [150, none], start_row 2,
end_row 3, start_col A, end_col C. -/
theorem c1_amended :
    processXlsxSheets [("Sheet1", gridA.view)] = [] ∧
    processXlsxSheets [("Sheet1", gridA2.view)] =
      [("REVENUE", TableData.mk "REVENUE" "Sheet1" 2 3 "A" "C"
        [("Q1", TableRow.mk "Q1" [Option.some 100, Option.some 200] "A2"),
         ("Q2", TableRow.mk "Q2" [Option.some 150, Option.none] "A3")])] := by
  decide

/-- C2 counterexample: the claimed iff fails on the digits-only string 123.
By the condition the claim states (string, non-empty after trimming, equal
to its own uppercased form) the cell would be a header candidate, but the
source filter uses Python isupper, which demands at least one cased
character, so the cell is not produced as a candidate; a whole sheet whose
only candidate-shaped cell is 123 therefore yields no table. -/
theorem c2_counterexample :
    specHeaderCandidate (CellValue.str "123") = true ∧
    headerCandidateB (CellValue.str "123") = false ∧
    processXlsxSheets [("Sheet1", grid123.view)] = [] := by
  decide

/-- C2 amended: a cell is produced as a header candidate iff its value is a
non-empty string that equals its own strip (no surrounding whitespace),
contains at least one uppercase letter, and contains no lowercase letter
(Python isupper semantics); in particular a string of only punctuation or
digits is NOT a header candidate. -/
theorem c2_amended (v : CellValue) :
    headerCandidateB v = true ↔
      ∃ s, v = CellValue.str s ∧ s ≠ "" ∧ pyStrip s = s ∧
        (∃ c ∈ s.data, c.isUpper = true) ∧ ∀ c ∈ s.data, c.isLower = false := by
  cases v with
  | none =>
    refine iff_of_false (by simp [headerCandidateB]) ?_
    rintro ⟨s, h, -⟩
    exact CellValue.noConfusion h
  | num q =>
    refine iff_of_false (by simp [headerCandidateB]) ?_
    rintro ⟨s, h, -⟩
    exact CellValue.noConfusion h
  | str s =>
    simp only [headerCandidateB, pyIsUpper, Bool.and_eq_true, Bool.not_eq_true',
      beq_eq_false_iff_ne, beq_iff_eq, List.any_eq_true, List.all_eq_true,
      CellValue.str.injEq, exists_eq_left']
    constructor
    · rintro ⟨h1, ⟨⟨c, hc, hor⟩, hall⟩, h3⟩
      refine ⟨h1, h3, ⟨c, hc, ?_⟩, hall⟩
      rcases (Bool.or_eq_true _ _).mp ((by simpa [isCased] using hor) : (c.isUpper || c.isLower) = true) with h | h
      · exact h
      · have hf := hall c hc
        rw [hf] at h
        exact Bool.noConfusion h
    · rintro ⟨h1, h3, ⟨c, hc, hu⟩, hall⟩
      exact ⟨h1, ⟨⟨c, hc, by simp [isCased, hu]⟩, hall⟩, h3⟩

/-- C2 amended, instantiated: the header cell value REVENUE satisfies the
amended candidate characterization. -/
theorem c2_amended_witness :
    ∃ s, CellValue.str "REVENUE" = CellValue.str s ∧ s ≠ "" ∧ pyStrip s = s ∧
      (∃ c ∈ s.data, c.isUpper = true) ∧ ∀ c ∈ s.data, c.isLower = false :=
  (c2_amended (CellValue.str "REVENUE")).mp (by decide)

/-- C3: right padding: any candidate that passes is_valid_table_header has
at least 2 consecutive empty cells in the scan window of at most 3 columns
to its right; equivalently a candidate whose window shows fewer than 2
leading empties is rejected. On the Scenario C sheet, whose TOTAL candidate
has exactly one blank cell before non-empty content, the count is 1 and
extraction yields no table. -/
theorem c3_right_padding :
    (∀ (g : GridView) (r c : Nat),
      is_valid_table_header g r c = true → 2 ≤ emptyAdjacent g r c) ∧
    emptyAdjacent gridC.view 1 1 = 1 ∧
    processXlsxSheets [("Sheet1", gridC.view)] = [] := by
  refine ⟨?_, by decide, by decide⟩
  intro g r c h
  simp only [is_valid_table_header] at h
  split at h
  · exact Bool.noConfusion h
  · split at h
    · exact Bool.noConfusion h
    · omega

/-- C3 instantiated: the REVENUE header of the Scenario B sheet validates,
so the right-padding bound applies to it. -/
theorem c3_right_padding_witness :
    2 ≤ emptyAdjacent gridB.view 1 1 :=
  c3_right_padding.1 gridB.view 1 1 (by decide)

/-- A successful data-start search lands at or below the row it started
from and within its fuel. -/
lemma findDataStartAux_bounds (g : GridView) :
    ∀ (f r d : Nat), findDataStartAux g f r = Option.some d → r ≤ d ∧ d < r + f := by
  intro f
  induction f with
  | zero =>
    intro r d h
    exact Option.noConfusion h
  | succ f ih =>
    intro r d h
    simp only [findDataStartAux] at h
    split at h
    · injection h with h
      omega
    · have := ih (r + 1) d h
      omega

/-- A successful data-start search returns a row that has data. -/
lemma findDataStartAux_hasData (g : GridView) :
    ∀ (f r d : Nat), findDataStartAux g f r = Option.some d → rowHasData g d = true := by
  intro f
  induction f with
  | zero =>
    intro r d h
    exact Option.noConfusion h
  | succ f ih =>
    intro r d h
    simp only [findDataStartAux] at h
    split at h
    · injection h with h
      subst h
      assumption
    · exact ih (r + 1) d h

/-- The end-row loop never moves backwards. -/
lemma findEndRowAux_ge (g : GridView) :
    ∀ (f e : Nat), e ≤ findEndRowAux g f e := by
  intro f
  induction f with
  | zero =>
    intro e
    exact Nat.le_refl e
  | succ f ih =>
    intro e
    simp only [findEndRowAux]
    split
    · exact Nat.le_refl e
    · split
      · exact Nat.le_trans (Nat.le_succ e) (ih (e + 1))
      · exact Nat.le_refl e

/-- The end-row loop advances at most fuel many rows. -/
lemma findEndRowAux_le (g : GridView) :
    ∀ (f e : Nat), findEndRowAux g f e ≤ e + f := by
  intro f
  induction f with
  | zero =>
    intro e
    exact Nat.le_refl e
  | succ f ih =>
    intro e
    simp only [findEndRowAux]
    split
    · omega
    · split
      · have := ih (e + 1)
        omega
      · omega

/-- Characterization of the end-row loop: every row from the start up to
(excluding) the result has data and starts no table, and the loop stopped
either by exhausting its fuel or at a row that starts a table or is empty. -/
lemma findEndRowAux_spec (g : GridView) :
    ∀ (f e : Nat),
      (∀ q, e ≤ q → q < findEndRowAux g f e →
        rowHasData g q = true ∧ rowStartsTable g q = false) ∧
      (findEndRowAux g f e = e + f ∨
        rowStartsTable g (findEndRowAux g f e) = true ∨
        rowHasData g (findEndRowAux g f e) = false) := by
  intro f
  induction f with
  | zero =>
    intro e
    refine ⟨fun q h1 h2 => absurd (Nat.lt_of_le_of_lt h1 h2) (Nat.lt_irrefl e), Or.inl rfl⟩
  | succ f ih =>
    intro e
    simp only [findEndRowAux]
    split
    · next hstart =>
      refine ⟨fun q h1 h2 => absurd (Nat.lt_of_le_of_lt h1 h2) (Nat.lt_irrefl e), ?_⟩
      exact Or.inr (Or.inl hstart)
    · next hstart =>
      split
      · next hdata =>
        obtain ⟨ih1, ih2⟩ := ih (e + 1)
        constructor
        · intro q h1 h2
          rcases Nat.eq_or_lt_of_le h1 with h | h
          · subst h
            exact ⟨hdata, Bool.not_eq_true _ ▸ (Bool.eq_false_iff.mpr hstart)⟩
          · exact ih1 q h h2
        · rcases ih2 with h | h
          · exact Or.inl (by omega)
          · exact Or.inr h
      · next hdata =>
        refine ⟨fun q h1 h2 => absurd (Nat.lt_of_le_of_lt h1 h2) (Nat.lt_irrefl e), ?_⟩
        exact Or.inr (Or.inr (Bool.eq_false_iff.mpr hdata))

/-- Consolidated facts about a successful boundary resolution: the data
start lies strictly below the header row and within the sheet, the end row
is within the sheet, the rows of the resolved range all have data and start
no table, the range is maximal (the next row is past the sheet, starts a
table, or is empty), and the end column is the one the column loop
computes. -/
lemma find_table_boundaries_spec (g : GridView) (sr sc d e ec : Nat)
    (h : find_table_boundaries g sr sc = Option.some (d, e, ec)) :
    sr + 1 ≤ d ∧ d ≤ g.maxRow ∧ e ≤ g.maxRow ∧
    (∀ q, d ≤ q → q ≤ e → rowHasData g q = true ∧ rowStartsTable g q = false) ∧
    (g.maxRow < e + 1 ∨ rowStartsTable g (e + 1) = true ∨ rowHasData g (e + 1) = false) ∧
    ec = findEndColAux g d e (g.maxCol + 1 - sc) sc sc := by
  unfold find_table_boundaries at h
  cases hds : findDataStartAux g (g.maxRow + 1 - (sr + 1)) (sr + 1) with
  | none =>
    rw [hds] at h
    exact Option.noConfusion h
  | some d0 =>
    rw [hds] at h
    simp only [Option.some.injEq, Prod.mk.injEq] at h
    obtain ⟨rfl, rfl, rfl⟩ := h
    have hb := findDataStartAux_bounds g _ _ _ hds
    have hd1 : sr + 1 ≤ d0 := hb.1
    have hd2 : d0 ≤ g.maxRow := by omega
    have hge := findEndRowAux_ge g (g.maxRow + 1 - d0) d0
    have hle := findEndRowAux_le g (g.maxRow + 1 - d0) d0
    obtain ⟨hrun, hstop⟩ := findEndRowAux_spec g (g.maxRow + 1 - d0) d0
    have hmin : min (findEndRowAux g (g.maxRow + 1 - d0) d0 - 1) g.maxRow =
        findEndRowAux g (g.maxRow + 1 - d0) d0 - 1 := by omega
    rw [hmin]
    refine ⟨hd1, hd2, by omega, ?_, ?_, rfl⟩
    · intro q h1 h2
      exact hrun q h1 (by omega)
    · rcases hstop with hs | hs
      · exact Or.inl (by omega)
      · rcases Nat.eq_or_lt_of_le hge with heq | hlt
        · rcases hs with hs1 | hs1
          · exact Or.inr (Or.inl (by rw [show findEndRowAux g (g.maxRow + 1 - d0) d0 - 1 + 1 = findEndRowAux g (g.maxRow + 1 - d0) d0 by omega]; exact hs1))
          · have hd := findDataStartAux_hasData g _ _ _ hds
            rw [← heq] at hs1
            rw [hd] at hs1
            exact Bool.noConfusion hs1
        · have h1 : findEndRowAux g (g.maxRow + 1 - d0) d0 - 1 + 1 =
              findEndRowAux g (g.maxRow + 1 - d0) d0 := by omega
          rw [h1]
          rcases hs with hs1 | hs1
          · exact Or.inr (Or.inl hs1)
          · exact Or.inr (Or.inr hs1)

/-- C4: end-row resolution: whenever boundary resolution succeeds, every
row of the resolved range data_start_row..end_row has data and contains no
cell that starts a table, and the row just past end_row is beyond the sheet,
is fully empty, or starts a new table — so the data block stops one row
before the first fully-empty row or the first row opening another table.
On the Scenario B sheet the two adjacent tables REVENUE and COSTS come out
independently, REVENUE ending at row 4, one row before the blank separator
row 5, and COSTS occupying row 7 only: their row ranges do not overlap. -/
theorem c4_end_row_resolution :
    (∀ (g : GridView) (sr sc d e ec : Nat),
      find_table_boundaries g sr sc = Option.some (d, e, ec) →
        (∀ q, d ≤ q → q ≤ e → rowHasData g q = true ∧ rowStartsTable g q = false) ∧
        (g.maxRow < e + 1 ∨ rowHasData g (e + 1) = false ∨ rowStartsTable g (e + 1) = true)) ∧
    processXlsxSheets [("Sheet1", gridB.view)] =
      [("REVENUE", TableData.mk "REVENUE" "Sheet1" 2 4 "A" "C"
        [("Q1", TableRow.mk "Q1" [Option.some 100, Option.some 200] "A2"),
         ("Q2", TableRow.mk "Q2" [Option.some 150, Option.some 250] "A3"),
         ("Q3", TableRow.mk "Q3" [Option.some 120, Option.some 220] "A4")]),
       ("COSTS", TableData.mk "COSTS" "Sheet1" 7 7 "A" "C"
        [("C1", TableRow.mk "C1" [Option.some 50, Option.some 60] "A7")])] := by
  constructor
  · intro g sr sc d e ec h
    obtain ⟨-, -, -, hrun, hstop, -⟩ := find_table_boundaries_spec g sr sc d e ec h
    refine ⟨hrun, ?_⟩
    rcases hstop with h1 | h1 | h1
    · exact Or.inl h1
    · exact Or.inr (Or.inr h1)
    · exact Or.inr (Or.inl h1)
  · decide

/-- C4 instantiated on the Scenario B sheet: boundary resolution for the
REVENUE header returns rows 2..4, so row 3 has data and starts no table. -/
theorem c4_end_row_resolution_witness :
    rowHasData gridB.view 3 = true ∧ rowStartsTable gridB.view 3 = false :=
  (c4_end_row_resolution.1 gridB.view 1 1 2 4 3 (by decide)).1 3 (by omega) (by omega)

/-- The end-column loop either keeps its accumulator or returns a visited
column, which lies between its starting column and the fuel bound. -/
lemma findEndColAux_bounds (g : GridView) (d e : Nat) :
    ∀ (f col acc : Nat), acc ≤ col →
      findEndColAux g d e f col acc = acc ∨
      (col ≤ findEndColAux g d e f col acc ∧ findEndColAux g d e f col acc < col + f) := by
  intro f
  induction f with
  | zero =>
    intro col acc h
    exact Or.inl rfl
  | succ f ih =>
    intro col acc h
    simp only [findEndColAux]
    split
    · rcases ih (col + 1) col (Nat.le_succ col) with h1 | h1
      · rw [h1]
        exact Or.inr ⟨Nat.le_refl col, by omega⟩
      · exact Or.inr ⟨by omega, by omega⟩
    · exact Or.inl rfl

/-- An extraction that produced at least one row ran over a non-empty row
range. -/
lemma extractRows_ne_nil (g : GridView) (d e sc ec : Nat)
    (h : extractRows g d e sc ec ≠ []) : d ≤ e := by
  by_contra hlt
  apply h
  unfold extractRows pyRange
  rw [show e + 1 - d = 0 by omega]
  rfl

/-- Members of a Python range are bounded by its endpoints. -/
lemma pyRange_mem {a b x : Nat} (h : x ∈ pyRange a b) : a ≤ x ∧ x < b := by
  unfold pyRange at h
  simp only [List.mem_map, List.mem_range] at h
  obtain ⟨i, hi, rfl⟩ := h
  omega

/-- A successful dict lookup comes from a pair of the list. -/
lemma dictGet_mem {α : Type} (l : List (String × α)) (k : String) (v : α)
    (h : dictGet l k = Option.some v) : (k, v) ∈ l := by
  unfold dictGet at h
  cases hf : l.find? (fun p => p.1 == k) with
  | none =>
    rw [hf] at h
    exact Option.noConfusion h
  | some p =>
    rw [hf] at h
    simp only [Option.map_some', Option.some.injEq] at h
    have hp := List.find?_some hf
    have hmem := List.mem_of_find?_eq_some hf
    have hpk : p.1 = k := by simpa using hp
    obtain ⟨p1, p2⟩ := p
    cases hpk
    cases h
    exact hmem

/-- Dict insertion preserves a property of all stored values as long as the
inserted value has it. -/
lemma dictInsert_forall {α : Type} (Q : α → Prop) (l : List (String × α)) (k : String) (v : α)
    (hl : ∀ p ∈ l, Q p.2) (hv : Q v) : ∀ p ∈ dictInsert l k v, Q p.2 := by
  intro p hp
  unfold dictInsert at hp
  split at hp
  · obtain ⟨q, hq, rfl⟩ := List.mem_map.mp hp
    by_cases hc : (q.1 == k) = true
    · simp only [hc, if_true]
      exact hv
    · simp only [hc, if_false]
      exact hl q hq
  · rcases List.mem_append.mp hp with h | h
    · exact hl p h
    · rw [List.mem_singleton.mp h]
      exact hv

/-- Invariant of every table that extraction inserts into the catalog: the
row range sits strictly below a row hr holding a validated header candidate
at column sc, inside the sheet extent, and the stored column letters come
from 1-based column numbers sc and ec with 1 <= sc <= ec <= max_col.
This is the bounds-containment property of the spec, carried per table. -/
def tableOk (g : GridView) (td : TableData) : Prop :=
  1 ≤ td.start_row ∧ td.start_row ≤ td.end_row ∧ td.end_row ≤ g.maxRow ∧
  ∃ hr sc ec, td.start_col = colLetter sc ∧ td.end_col = colLetter ec ∧
    1 ≤ sc ∧ sc ≤ ec ∧ ec ≤ g.maxCol ∧
    1 ≤ hr ∧ hr < td.start_row ∧
    headerCandidateB (g.cell hr sc) = true ∧ is_valid_table_header g hr sc = true

/-- The scan step preserves any property Q that covers both the tables
already accumulated and every table satisfying the insertion invariant. -/
lemma scanCell_forall (g : GridView) (sn : String) (Q : TableData → Prop)
    (hQ : ∀ td, tableOk g td → td.sheet = sn → Q td)
    (acc : List (String × TableData)) (r c : Nat)
    (hr1 : 1 ≤ r) (hc1 : 1 ≤ c) (hc2 : c ≤ g.maxCol)
    (hacc : ∀ p ∈ acc, Q p.2) :
    ∀ p ∈ scanCell g sn acc r c, Q p.2 := by
  intro p hp
  unfold scanCell at hp
  by_cases hcand : headerCandidateB (g.cell r c) = true
  · rw [if_pos hcand] at hp
    by_cases hvalid : is_valid_table_header g r c = true
    · rw [if_pos hvalid] at hp
      cases hb : find_table_boundaries g r c with
      | none =>
        rw [hb] at hp
        exact hacc p hp
      | some t =>
        obtain ⟨d, e, ec⟩ := t
        rw [hb] at hp
        dsimp only at hp
        by_cases hne : (extractRows g d e c ec).isEmpty = true
        · rw [if_pos hne] at hp
          exact hacc p hp
        · rw [if_neg hne] at hp
          refine dictInsert_forall Q acc _ _ hacc ?_ p hp
          have hnil : extractRows g d e c ec ≠ [] := by
            intro h0
            rw [h0] at hne
            exact hne rfl
          have hde : d ≤ e := extractRows_ne_nil g d e c ec hnil
          obtain ⟨hd1, hd2, he2, -, -, hec⟩ := find_table_boundaries_spec g r c d e ec hb
          have hecb := findEndColAux_bounds g d e (g.maxCol + 1 - c) c c (Nat.le_refl c)
          rw [← hec] at hecb
          apply hQ
          · dsimp only [tableOk]
            refine ⟨by omega, hde, he2, r, c, ec, rfl, rfl, hc1, ?_, ?_, hr1, by omega,
              hcand, hvalid⟩
            · rcases hecb with h1 | h1
              · omega
              · omega
            · rcases hecb with h1 | h1
              · omega
              · omega
          · rfl
    · rw [if_neg hvalid] at hp
      exact hacc p hp
  · rw [if_neg hcand] at hp
    exact hacc p hp

/-- The inner column fold of the sheet scan preserves the catalog
property. -/
lemma foldl_scanCell_forall (g : GridView) (sn : String) (Q : TableData → Prop)
    (hQ : ∀ td, tableOk g td → td.sheet = sn → Q td) (r : Nat) (hr1 : 1 ≤ r) :
    ∀ (cols : List Nat), (∀ c ∈ cols, 1 ≤ c ∧ c ≤ g.maxCol) →
      ∀ (acc : List (String × TableData)), (∀ p ∈ acc, Q p.2) →
      ∀ p ∈ cols.foldl (fun a2 c => scanCell g sn a2 r c) acc, Q p.2 := by
  intro cols
  induction cols with
  | nil =>
    intro _ acc hacc p hp
    exact hacc p hp
  | cons c cols ih =>
    intro hcols acc hacc
    simp only [List.foldl_cons]
    have hc := hcols c (List.mem_cons_self c cols)
    exact ih (fun x hx => hcols x (List.mem_cons_of_mem c hx)) _
      (scanCell_forall g sn Q hQ acc r c hr1 hc.1 hc.2 hacc)

/-- The outer row fold of the sheet scan preserves the catalog property. -/
lemma foldl_rows_forall (g : GridView) (sn : String) (Q : TableData → Prop)
    (hQ : ∀ td, tableOk g td → td.sheet = sn → Q td) :
    ∀ (rows : List Nat), (∀ r ∈ rows, 1 ≤ r) →
      ∀ (acc : List (String × TableData)), (∀ p ∈ acc, Q p.2) →
      ∀ p ∈ rows.foldl
        (fun a r => (pyRange 1 (g.maxCol + 1)).foldl (fun a2 c => scanCell g sn a2 r c) a)
        acc, Q p.2 := by
  intro rows
  induction rows with
  | nil =>
    intro _ acc hacc p hp
    exact hacc p hp
  | cons r rows ih =>
    intro hrows acc hacc
    simp only [List.foldl_cons]
    refine ih (fun x hx => hrows x (List.mem_cons_of_mem r hx)) _ ?_
    refine foldl_scanCell_forall g sn Q hQ r (hrows r (List.mem_cons_self r rows))
      (pyRange 1 (g.maxCol + 1)) ?_ acc hacc
    intro c hc
    have := pyRange_mem hc
    omega

/-- The whole sheet scan preserves the catalog property. -/
lemma processSheet_forall (g : GridView) (sn : String) (Q : TableData → Prop)
    (hQ : ∀ td, tableOk g td → td.sheet = sn → Q td)
    (acc : List (String × TableData)) (hacc : ∀ p ∈ acc, Q p.2) :
    ∀ p ∈ processSheet g sn acc, Q p.2 := by
  unfold processSheet
  refine foldl_rows_forall g sn Q hQ (pyRange 1 (g.maxRow + 1)) ?_ acc hacc
  intro r hr
  exact (pyRange_mem hr).1

/-- Every table of the accumulated catalog of processXlsxSheets belongs to
one of the processed sheets and satisfies the per-table invariant against
that sheet's grid. -/
lemma processXlsxSheets_spec (sheets : List (String × GridView)) :
    ∀ p ∈ processXlsxSheets sheets,
      ∃ q ∈ sheets, p.2.sheet = q.1 ∧ tableOk q.2 p.2 := by
  unfold processXlsxSheets
  suffices h : ∀ (l : List (String × GridView)), (∀ q ∈ l, q ∈ sheets) →
      ∀ (acc : List (String × TableData)),
      (∀ p ∈ acc, ∃ q ∈ sheets, p.2.sheet = q.1 ∧ tableOk q.2 p.2) →
      ∀ p ∈ l.foldl (fun acc q => processSheet q.2 q.1 acc) acc,
        ∃ q ∈ sheets, p.2.sheet = q.1 ∧ tableOk q.2 p.2 by
    exact h sheets (fun q hq => hq) [] (fun p hp => absurd hp (List.not_mem_nil p))
  intro l
  induction l with
  | nil =>
    intro _ acc hacc p hp
    exact hacc p hp
  | cons q l ih =>
    intro hl acc hacc
    simp only [List.foldl_cons]
    refine ih (fun x hx => hl x (List.mem_cons_of_mem q hx)) _ ?_
    refine processSheet_forall q.2 q.1
      (fun td => ∃ q2 ∈ sheets, td.sheet = q2.1 ∧ tableOk q2.2 td) ?_ acc hacc
    intro td hok hsheet
    exact ⟨q, hl q (List.mem_cons_self q l), hsheet, hok⟩

/-- C5: bounds containment: every table of the returned catalog satisfies
1 <= start_row <= end_row <= max_row of the owning sheet's grid, its column
letters come from numeric columns with 1 <= start_col <= end_col <= max_col,
and start_row is strictly greater than the row of the validated header that
produced the table. -/
theorem c5_bounds_containment :
    ∀ (sheets : List (String × GridView)) (name : String) (td : TableData),
      dictGet (processXlsxSheets sheets) name = Option.some td →
      ∃ q ∈ sheets, td.sheet = q.1 ∧ tableOk q.2 td := by
  intro sheets name td h
  exact processXlsxSheets_spec sheets (name, td) (dictGet_mem _ _ _ h)

/-- C5 instantiated: the COSTS table extracted from the Scenario B sheet
satisfies the bounds-containment invariant. -/
theorem c5_bounds_containment_witness :
    ∃ q ∈ [("Sheet1", gridB.view)],
      (TableData.mk "COSTS" "Sheet1" 7 7 "A" "C"
        [("C1", TableRow.mk "C1" [Option.some 50, Option.some 60] "A7")]).sheet = q.1 ∧
      tableOk q.2
        (TableData.mk "COSTS" "Sheet1" 7 7 "A" "C"
          [("C1", TableRow.mk "C1" [Option.some 50, Option.some 60] "A7")]) :=
  c5_bounds_containment [("Sheet1", gridB.view)] "COSTS"
    (TableData.mk "COSTS" "Sheet1" 7 7 "A" "C"
      [("C1", TableRow.mk "C1" [Option.some 50, Option.some 60] "A7")]) (by decide)

/-- Two tiny grids with the same cell contents everywhere, stored with
different list padding: the second carries an extra trailing empty row
list. -/
def gridE1 : Grid := Grid.mk 1 1 [[CellValue.num 1]]

/-- Padded twin of gridE1. -/
def gridE2 : Grid := Grid.mk 1 1 [[CellValue.num 1], []]

/-- C8: determinism: extraction is a pure function of the grid. Running it
twice on the same sheets yields identical catalogs, and the result depends
only on the extensional content of the grid (its extents and the value at
every position), not on the particular list representation carrying it. -/
theorem c8_extraction_deterministic :
    (∀ sheets : List (String × GridView),
      processXlsxSheets sheets = processXlsxSheets sheets) ∧
    (∀ g1 g2 : Grid, g1.maxRow = g2.maxRow → g1.maxCol = g2.maxCol →
      (∀ r c, g1.cellAt r c = g2.cellAt r c) →
      ∀ (sn : String) (acc : List (String × TableData)),
        processSheet g1.view sn acc = processSheet g2.view sn acc) := by
  refine ⟨fun sheets => rfl, ?_⟩
  intro g1 g2 h1 h2 h3 sn acc
  have hv : g1.view = g2.view := by
    unfold Grid.view
    rw [h1, h2]
    congr 1
    funext r c
    exact h3 r c
  rw [hv]

/-- C8 instantiated: the two padded twins produce the same catalog. -/
theorem c8_extraction_deterministic_witness :
    processSheet gridE1.view "S" [] = processSheet gridE2.view "S" [] :=
  c8_extraction_deterministic.2 gridE1 gridE2 rfl rfl
    (fun r c => by
      match r with
      | 0 => rfl
      | 1 => rfl
      | 2 => rfl
      | n + 3 => rfl)
    "S" []

/-- C10: row_value semantics: when the file, table and row all resolve, the
endpoint answers 200 with the table name, row name, sheet and stored
location, and the value is None for an empty values list, the single entry
itself (which may be None) for a one-element list, and otherwise the sum of
the non-None entries. -/
theorem c10_row_value_semantics :
    ∀ (store : List (String × UploadedFileM)) (fid tname rname : String)
      (uf : UploadedFileM) (table : TableData) (row : TableRow),
      dictGet store fid = Option.some uf →
      dictGet uf.tables tname = Option.some table →
      dictGet table.rows rname = Option.some row →
      ∃ resp, get_row_value store fid tname rname = Except.ok resp ∧
        resp.table_name = tname ∧ resp.row_name = rname ∧
        resp.sheet = table.sheet ∧ resp.location = row.location ∧
        (row.values = [] → resp.value = Option.none) ∧
        (∀ v, row.values = [v] → resp.value = v) ∧
        (2 ≤ row.values.length →
          resp.value = Option.some ((row.values.filterMap id).sum)) := by
  intro store fid tname rname uf table row h1 h2 h3
  unfold get_row_value
  rw [h1]
  dsimp only
  rw [h2]
  dsimp only
  rw [h3]
  dsimp only
  by_cases hemp : row.values.isEmpty = true
  · rw [if_pos hemp]
    refine ⟨_, rfl, rfl, rfl, rfl, rfl, fun _ => rfl, ?_, ?_⟩
    · intro v hv
      rw [hv] at hemp
      exact absurd hemp (by simp)
    · intro hlen
      rw [List.isEmpty_iff] at hemp
      rw [hemp] at hlen
      exact absurd hlen (by simp)
  · rw [if_neg hemp]
    refine ⟨_, rfl, rfl, rfl, rfl, rfl, ?_, ?_, ?_⟩
    · intro h0
      rw [h0] at hemp
      exact absurd rfl hemp
    · intro v hv
      rw [hv]
      rfl
    · intro hlen
      rw [if_neg (by omega)]

/-- Concrete row for exercising the row_value endpoint. -/
def rowC10 : TableRow := TableRow.mk "r" [Option.some 1, Option.some 2, Option.none] "A2"

/-- Concrete table holding rowC10. -/
def tableC10 : TableData := TableData.mk "T" "Sheet1" 2 2 "A" "C" [("r", rowC10)]

/-- Concrete uploaded-file record holding tableC10. -/
def ufC10 : UploadedFileM := UploadedFileM.mk "wb.xlsx" ["Sheet1"] [("T", tableC10)]

/-- Concrete one-entry file store. -/
def storeC10 : List (String × UploadedFileM) := [("f1", ufC10)]

/-- C10 instantiated on the concrete store: the lookup chain resolves and
the endpoint answers according to the three-way case split on values. -/
theorem c10_row_value_semantics_witness :
    ∃ resp, get_row_value storeC10 "f1" "T" "r" = Except.ok resp ∧
      resp.table_name = "T" ∧ resp.row_name = "r" ∧
      resp.sheet = tableC10.sheet ∧ resp.location = rowC10.location ∧
      (rowC10.values = [] → resp.value = Option.none) ∧
      (∀ v, rowC10.values = [v] → resp.value = v) ∧
      (2 ≤ rowC10.values.length →
        resp.value = Option.some ((rowC10.values.filterMap id).sum)) :=
  c10_row_value_semantics storeC10 "f1" "T" "r" ufC10 tableC10 rowC10
    (by decide) (by decide) (by decide)

/-- Shifting a Python range by one shifts its elements by one. -/
lemma pyRange_succ (a b : Nat) :
    pyRange (a + 1) (b + 1) = (pyRange a b).map (fun x => x + 1) := by
  unfold pyRange
  rw [Nat.succ_sub_succ, List.map_map]
  congr 1
  funext i
  simp only [Function.comp_apply]
  omega

/-- Range starting at 1, as the 1-indexed loops write it. -/
lemma pyRange_one (b : Nat) :
    pyRange 1 (b + 1) = (pyRange 0 b).map (fun x => x + 1) :=
  pyRange_succ 0 b

/-- The xls row-emptiness loop agrees with the xlsx one at the shifted
row. -/
lemma rowHasDataX_eq (g : GridView) (r : Nat) :
    rowHasDataX g r = rowHasData g (r + 1) := by
  unfold rowHasDataX rowHasData
  rw [pyRange_one, List.any_map]
  rfl

/-- The xls empty_adjacent count agrees with the xlsx one at the shifted
position. -/
lemma emptyAdjacentX_eq (g : GridView) (r c : Nat) :
    emptyAdjacentX g r c = emptyAdjacent g (r + 1) (c + 1) := by
  unfold emptyAdjacentX emptyAdjacent
  have h1 : min (c + 1 + 4) (g.maxCol + 1) = min (c + 4) g.maxCol + 1 := by omega
  rw [h1]
  have h2 := pyRange_succ (c + 1) (min (c + 4) g.maxCol)
  rw [h2, List.map_map]
  rfl

/-- The xls header validator agrees with the xlsx one at the shifted
position. -/
lemma is_valid_xls_table_header_eq (g : GridView) (r c : Nat) :
    is_valid_xls_table_header g r c = is_valid_table_header g (r + 1) (c + 1) := by
  unfold is_valid_xls_table_header is_valid_table_header
  rw [emptyAdjacentX_eq, rowHasDataX_eq]
  have h3 : decide (g.maxRow ≤ r + 1) = decide (g.maxRow < r + 1 + 1) :=
    decide_eq_decide.mpr (by omega)
  rw [h3]
  cases c with
  | zero =>
    simp only [cellAtX]
    norm_num
  | succ k =>
    have h1 : (decide (0 < k + 1) && truthy (cellAtX g r (k + 1 - 1))) =
        (decide (1 < k + 1 + 1) && truthy (g.cell (r + 1) (k + 1 + 1 - 1))) := by
      simp only [cellAtX]
      norm_num
    rw [h1]

/-- The xls header-row test agrees with the xlsx one at the shifted row. -/
lemma rowStartsTableX_eq (g : GridView) (r : Nat) :
    rowStartsTableX g r = rowStartsTable g (r + 1) := by
  unfold rowStartsTableX rowStartsTable
  rw [pyRange_one, List.any_map]
  congr 1
  funext c
  simp only [Function.comp_apply]
  rw [is_valid_xls_table_header_eq]
  rfl

/-- The xls data-start loop agrees with the xlsx one at the shifted row,
with the found row shifted back. -/
lemma findDataStartAuxX_eq (g : GridView) :
    ∀ (f r : Nat),
      findDataStartAux g f (r + 1) = (findDataStartAuxX g f r).map (fun x => x + 1) := by
  intro f
  induction f with
  | zero =>
    intro r
    rfl
  | succ f ih =>
    intro r
    simp only [findDataStartAux, findDataStartAuxX]
    rw [← rowHasDataX_eq g r]
    by_cases h : rowHasDataX g r = true
    · rw [if_pos h, if_pos h]
      rfl
    · rw [if_neg h, if_neg h]
      exact ih (r + 1)

/-- A successful xls data-start search lands within its fuel. -/
lemma findDataStartAuxX_bounds (g : GridView) :
    ∀ (f r d : Nat), findDataStartAuxX g f r = Option.some d → r ≤ d ∧ d < r + f := by
  intro f
  induction f with
  | zero =>
    intro r d h
    exact Option.noConfusion h
  | succ f ih =>
    intro r d h
    simp only [findDataStartAuxX] at h
    split at h
    · injection h with h
      omega
    · have := ih (r + 1) d h
      omega

/-- The xls end-row loop never moves backwards. -/
lemma findEndRowAuxX_ge (g : GridView) :
    ∀ (f e : Nat), e ≤ findEndRowAuxX g f e := by
  intro f
  induction f with
  | zero =>
    intro e
    exact Nat.le_refl e
  | succ f ih =>
    intro e
    simp only [findEndRowAuxX]
    split
    · exact Nat.le_refl e
    · split
      · exact Nat.le_trans (Nat.le_succ e) (ih (e + 1))
      · exact Nat.le_refl e

/-- The xls end-row loop agrees with the xlsx one at the shifted row. -/
lemma findEndRowAuxX_eq (g : GridView) :
    ∀ (f e : Nat), findEndRowAux g f (e + 1) = findEndRowAuxX g f e + 1 := by
  intro f
  induction f with
  | zero =>
    intro e
    rfl
  | succ f ih =>
    intro e
    simp only [findEndRowAux, findEndRowAuxX]
    rw [← rowStartsTableX_eq g e, ← rowHasDataX_eq g e]
    by_cases h1 : rowStartsTableX g e = true
    · rw [if_pos h1, if_pos h1]
    · rw [if_neg h1, if_neg h1]
      by_cases h2 : rowHasDataX g e = true
      · rw [if_pos h2, if_pos h2]
        exact ih (e + 1)
      · rw [if_neg h2, if_neg h2]

/-- The xls column-data test agrees with the xlsx one at the shifted
position. -/
lemma colHasDataX_eq (g : GridView) (d e c : Nat) :
    colHasDataX g d e c = colHasData g (d + 1) (e + 1) (c + 1) := by
  unfold colHasDataX colHasData
  rw [pyRange_succ d (e + 1), List.any_map]
  rfl

/-- The xls end-column loop agrees with the xlsx one at the shifted
position. -/
lemma findEndColAuxX_eq (g : GridView) (d e : Nat) :
    ∀ (f col acc : Nat),
      findEndColAux g (d + 1) (e + 1) f (col + 1) (acc + 1) =
        findEndColAuxX g d e f col acc + 1 := by
  intro f
  induction f with
  | zero =>
    intro col acc
    rfl
  | succ f ih =>
    intro col acc
    simp only [findEndColAux, findEndColAuxX]
    rw [← colHasDataX_eq g d e col]
    by_cases h : colHasDataX g d e col = true
    · rw [if_pos h, if_pos h]
      exact ih (col + 1) col
    · rw [if_neg h, if_neg h]

/-- The xls boundary resolver agrees with the xlsx one at the shifted
header position, with all three results shifted back. -/
lemma find_xls_table_boundaries_eq (g : GridView) (sr sc : Nat) :
    find_table_boundaries g (sr + 1) (sc + 1) =
      (find_xls_table_boundaries g sr sc).map
        (fun t => (t.1 + 1, t.2.1 + 1, t.2.2 + 1)) := by
  unfold find_table_boundaries find_xls_table_boundaries
  have hf : g.maxRow + 1 - (sr + 1 + 1) = g.maxRow - (sr + 1) := by omega
  rw [hf, findDataStartAuxX_eq g (g.maxRow - (sr + 1)) (sr + 1)]
  cases hds : findDataStartAuxX g (g.maxRow - (sr + 1)) (sr + 1) with
  | none =>
    rfl
  | some d =>
    obtain ⟨hd1, hd2⟩ := findDataStartAuxX_bounds g _ _ _ hds
    have hd3 : d < g.maxRow := by omega
    simp only [Option.map_some']
    have hf2 : g.maxRow + 1 - (d + 1) = g.maxRow - d := by omega
    rw [hf2, findEndRowAuxX_eq g (g.maxRow - d) d]
    have hge := findEndRowAuxX_ge g (g.maxRow - d) d
    have hmin : min (findEndRowAuxX g (g.maxRow - d) d + 1 - 1) g.maxRow =
        min (findEndRowAuxX g (g.maxRow - d) d - 1) (g.maxRow - 1) + 1 := by omega
    rw [hmin]
    have hf3 : g.maxCol + 1 - (sc + 1) = g.maxCol - sc := by omega
    rw [hf3, findEndColAuxX_eq g d (min (findEndRowAuxX g (g.maxRow - d) d - 1) (g.maxRow - 1))
      (g.maxCol - sc) sc sc]

/-- The xls row materialization agrees with the xlsx one at the shifted
bounds: both produce rows with identical names, values and locations. -/
lemma extractRowsX_eq (g : GridView) (d e sc ec : Nat) :
    extractRowsX g d e sc ec = extractRows g (d + 1) (e + 1) (sc + 1) (ec + 1) := by
  unfold extractRowsX extractRows
  rw [pyRange_succ d (e + 1), List.foldl_map]
  congr 1
  funext rows r
  rw [pyRange_succ sc (ec + 1), List.map_map]
  rfl

/-- The xls scan step agrees with the xlsx scan step at the shifted cell
position. -/
lemma scanCellX_eq (g : GridView) (sn : String) (acc : List (String × TableData)) (r c : Nat) :
    scanCellX g sn acc r c = scanCell g sn acc (r + 1) (c + 1) := by
  unfold scanCellX scanCell
  rw [is_valid_xls_table_header_eq, find_xls_table_boundaries_eq]
  by_cases h1 : headerCandidateB (cellAtX g r c) = true
  · rw [if_pos h1, if_pos (show headerCandidateB (g.cell (r + 1) (c + 1)) = true from h1)]
    by_cases h2 : is_valid_table_header g (r + 1) (c + 1) = true
    · rw [if_pos h2, if_pos h2]
      cases hb : find_xls_table_boundaries g r c with
      | none => rfl
      | some t =>
        obtain ⟨d, e, ec⟩ := t
        simp only [Option.map_some']
        rw [← extractRowsX_eq]
        rfl
    · rw [if_neg h2, if_neg h2]
  · rw [if_neg h1, if_neg (show ¬headerCandidateB (g.cell (r + 1) (c + 1)) = true from h1)]

/-- The xls sheet scan agrees with the xlsx sheet scan on the same logical
grid. -/
lemma processSheetX_eq (g : GridView) (sn : String) (acc : List (String × TableData)) :
    processSheetX g sn acc = processSheet g sn acc := by
  unfold processSheetX processSheet
  rw [pyRange_one g.maxRow, List.foldl_map]
  congr 1
  funext a r
  rw [pyRange_one g.maxCol, List.foldl_map]
  congr 1
  funext a2 c
  exact scanCellX_eq g sn a2 r c

/-- C7: format-variant equivalence: on any logical workbook (the same
sheet names and the same cell values at the same 1-indexed positions), the
legacy path process_xls_file and the modern path process_xlsx_file return
the same record: same sheet list and the same catalog of tables with
identical names, normalized bounds, rows, values and locations. -/
theorem c7_format_variant_equivalence :
    ∀ (sheets : List (String × GridView)) (filename : String),
      process_xls_file filename sheets = process_xlsx_file filename sheets := by
  intro sheets filename
  have h : processXlsSheets sheets = processXlsxSheets sheets := by
    unfold processXlsSheets processXlsxSheets
    congr 1
    funext acc p
    exact processSheetX_eq p.2 p.1 acc
  unfold process_xls_file process_xlsx_file
  rw [h]

/-- The table one scanned cell contributes, if any: Some exactly when the
cell passes the candidate filter, validates as a header, resolves
boundaries, and extracts at least one row. The table is the one scanCell
inserts, keyed by its own trimmed name. -/
def tableAt (g : GridView) (sn : String) (r c : Nat) : Option TableData :=
  if headerCandidateB (g.cell r c) then
    if is_valid_table_header g r c then
      match find_table_boundaries g r c with
      | Option.none => Option.none
      | Option.some (d, e, ec) =>
        if (extractRows g d e c ec).isEmpty then Option.none
        else
          Option.some
            (TableData.mk (pyStrip (pyStr (g.cell r c))) sn d e
              (colLetter c) (colLetter ec) (extractRows g d e c ec))
    else Option.none
  else Option.none

/-- The scan step is exactly: insert the contributed table under its name,
or keep the accumulator when the cell contributes nothing. -/
lemma scanCell_eq_tableAt (g : GridView) (sn : String)
    (acc : List (String × TableData)) (r c : Nat) :
    scanCell g sn acc r c =
      match tableAt g sn r c with
      | Option.none => acc
      | Option.some td => dictInsert acc td.name td := by
  unfold scanCell tableAt
  by_cases h1 : headerCandidateB (g.cell r c) = true
  · rw [if_pos h1, if_pos h1]
    by_cases h2 : is_valid_table_header g r c = true
    · rw [if_pos h2, if_pos h2]
      cases hb : find_table_boundaries g r c with
      | none => rfl
      | some t =>
        obtain ⟨d, e, ec⟩ := t
        dsimp only
        by_cases h3 : (extractRows g d e c ec).isEmpty = true
        · rw [if_pos h3, if_pos h3]
        · rw [if_neg h3, if_neg h3]
    · rw [if_neg h2, if_neg h2]
  · rw [if_neg h1, if_neg h1]

/-- All tables a sheet scan contributes, in row-major scan order: the
order in which the source encounters and inserts them. -/
def scanTables (g : GridView) (sn : String) : List TableData :=
  (pyRange 1 (g.maxRow + 1)).flatMap
    (fun r => (pyRange 1 (g.maxCol + 1)).filterMap (fun c => tableAt g sn r c))

/-- Sequential dict insertion of a list of tables, each under its own
name. -/
def insertAll (acc : List (String × TableData)) (ts : List TableData) :
    List (String × TableData) :=
  ts.foldl (fun a td => dictInsert a td.name td) acc

/-- find? over an append searches the left part first. -/
lemma find?_append_eq {β : Type} (p : β → Bool) :
    ∀ (l1 l2 : List β), (l1 ++ l2).find? p =
      match l1.find? p with
      | Option.some a => Option.some a
      | Option.none => l2.find? p := by
  intro l1 l2
  induction l1 with
  | nil => rfl
  | cons a l ih =>
    by_cases h : p a = true
    · rw [List.cons_append, List.find?_cons_of_pos _ h, List.find?_cons_of_pos _ h]
    · rw [List.cons_append, List.find?_cons_of_neg _ h, List.find?_cons_of_neg _ h]
      exact ih

/-- In the overwrite branch of dictInsert, the lookup of the inserted key
finds the fresh value. -/
lemma find?_map_insert {α : Type} (k : String) (v : α) :
    ∀ (l : List (String × α)), l.any (fun p => p.1 == k) = true →
      (l.map (fun p => if p.1 == k then (k, v) else p)).find? (fun p => p.1 == k) =
        Option.some (k, v) := by
  intro l
  induction l with
  | nil =>
    intro h
    exact Bool.noConfusion h
  | cons p l ih =>
    intro h
    simp only [List.map_cons]
    by_cases hp : (p.1 == k) = true
    · rw [if_pos hp]
      exact List.find?_cons_of_pos _ (by simp)
    · rw [if_neg hp]
      rw [List.find?_cons_of_neg _ (by simpa using hp)]
      apply ih
      simp only [List.any_cons, Bool.or_eq_true] at h
      rcases h with h1 | h1
      · exact absurd h1 hp
      · exact h1

/-- Looking up the key just inserted finds the inserted value. -/
lemma dictGet_insert_self {α : Type} (l : List (String × α)) (k : String) (v : α) :
    dictGet (dictInsert l k v) k = Option.some v := by
  unfold dictInsert dictGet
  split
  · next h =>
    rw [find?_map_insert k v l h]
    rfl
  · next h =>
    have hn : l.find? (fun p => p.1 == k) = Option.none := by
      rw [List.find?_eq_none]
      intro x hx hpx
      exact h (List.any_eq_true.mpr ⟨x, hx, hpx⟩)
    rw [find?_append_eq, hn]
    rw [List.find?_cons_of_pos _ (by simp)]
    rfl

/-- The overwrite branch of dictInsert leaves lookups of other keys
unchanged. -/
lemma find?_map_insert_other {α : Type} (k k' : String) (v : α) (hkk : k ≠ k') :
    ∀ (l : List (String × α)),
      (l.map (fun p => if p.1 == k then (k, v) else p)).find? (fun p => p.1 == k') =
        l.find? (fun p => p.1 == k') := by
  intro l
  induction l with
  | nil => rfl
  | cons p l ih =>
    simp only [List.map_cons, List.find?_cons]
    by_cases hp : (p.1 == k) = true
    · rw [if_pos hp]
      have hp1 : p.1 = k := eq_of_beq hp
      have h1 : (((k, v) : String × α).1 == k') = false := by
        simp only [beq_eq_false_iff_ne]
        exact hkk
      have h2 : (p.1 == k') = false := by
        rw [hp1]
        exact h1
      rw [h1, h2]
      exact ih
    · rw [if_neg hp]
      by_cases hq : (p.1 == k') = true
      · rw [hq]
      · have hq' : (p.1 == k') = false := by
          cases h0 : (p.1 == k') with
          | true => exact absurd h0 hq
          | false => rfl
        rw [hq']
        exact ih

/-- Inserting under one key leaves lookups of any other key unchanged. -/
lemma dictGet_insert_other {α : Type} (l : List (String × α)) (k k' : String) (v : α)
    (h : k ≠ k') : dictGet (dictInsert l k v) k' = dictGet l k' := by
  unfold dictInsert dictGet
  split
  · rw [find?_map_insert_other k k' v h l]
  · rw [find?_append_eq]
    cases hf : l.find? (fun p => p.1 == k') with
    | some a => rfl
    | none =>
      rw [List.find?_cons_of_neg _ (by simpa using h)]
      rfl

/-- Last-writer-wins for sequential insertion: after inserting a list of
tables each under its own name, the lookup of a name yields the last table
of that name in insertion order, or falls back to the prior accumulator
when the list holds none. -/
lemma insertAll_getLast (n : String) :
    ∀ (ts : List TableData) (acc : List (String × TableData)),
      dictGet (insertAll acc ts) n =
        match (ts.filter (fun td => td.name == n)).getLast? with
        | Option.some td => Option.some td
        | Option.none => dictGet acc n := by
  intro ts
  induction ts with
  | nil =>
    intro acc
    rfl
  | cons td ts ih =>
    intro acc
    rw [show insertAll acc (td :: ts) = insertAll (dictInsert acc td.name td) ts from rfl]
    rw [ih]
    by_cases hname : (td.name == n) = true
    · simp only [List.filter_cons, hname, if_pos]
      cases hl : ts.filter (fun td => td.name == n) with
      | nil =>
        have he : td.name = n := eq_of_beq hname
        simp only [List.getLast?_nil, List.getLast?_singleton]
        rw [← he]
        exact dictGet_insert_self acc td.name td
      | cons x xs =>
        rw [List.getLast?_cons_cons]
        cases hg : (x :: xs).getLast? with
        | some t => rfl
        | none => exact absurd (List.getLast?_eq_none_iff.mp hg) (List.cons_ne_nil x xs)
    · have hname' : (td.name == n) = false := by
        cases h0 : (td.name == n) with
        | true => exact absurd h0 hname
        | false => rfl
      simp only [List.filter_cons, hname', Bool.false_eq_true, if_false]
      cases hgl : (ts.filter (fun td => td.name == n)).getLast? with
      | some t => rfl
      | none =>
        exact dictGet_insert_other acc td.name n td (by simpa using hname)

/-- The column loop of the scan is sequential insertion of the tables the
row's cells contribute. -/
lemma foldl_scanCell_eq_insertAll (g : GridView) (sn : String) (r : Nat) :
    ∀ (cols : List Nat) (acc : List (String × TableData)),
      cols.foldl (fun a2 c => scanCell g sn a2 r c) acc =
        insertAll acc (cols.filterMap (fun c => tableAt g sn r c)) := by
  intro cols
  induction cols with
  | nil =>
    intro acc
    rfl
  | cons c cols ih =>
    intro acc
    simp only [List.foldl_cons, List.filterMap_cons]
    rw [scanCell_eq_tableAt]
    cases ht : tableAt g sn r c with
    | none =>
      exact ih acc
    | some td =>
      exact ih (dictInsert acc td.name td)

/-- The row loop of the scan is sequential insertion of all tables the
sheet's cells contribute, in row-major order. -/
lemma foldl_rows_eq_insertAll (g : GridView) (sn : String) :
    ∀ (rows : List Nat) (acc : List (String × TableData)),
      rows.foldl
        (fun a r => (pyRange 1 (g.maxCol + 1)).foldl (fun a2 c => scanCell g sn a2 r c) a)
        acc =
        insertAll acc
          (rows.flatMap (fun r => (pyRange 1 (g.maxCol + 1)).filterMap (fun c => tableAt g sn r c))) := by
  intro rows
  induction rows with
  | nil =>
    intro acc
    rfl
  | cons r rows ih =>
    intro acc
    simp only [List.foldl_cons, List.flatMap_cons]
    rw [foldl_scanCell_eq_insertAll, ih]
    unfold insertAll
    rw [List.foldl_append]

/-- The sheet scan equals sequential insertion of its scan-order table
list. -/
lemma processSheet_eq_insertAll (g : GridView) (sn : String)
    (acc : List (String × TableData)) :
    processSheet g sn acc = insertAll acc (scanTables g sn) := by
  unfold processSheet scanTables
  exact foldl_rows_eq_insertAll g sn (pyRange 1 (g.maxRow + 1)) acc

/-- The table the earlier REVENUE header of gridD produces. -/
def tableD1 : TableData :=
  TableData.mk "REVENUE" "Sheet1" 2 2 "A" "B" [("A", TableRow.mk "A" [Option.some 1] "A2")]

/-- The table the later REVENUE header of gridD produces. -/
def tableD2 : TableData :=
  TableData.mk "REVENUE" "Sheet1" 5 5 "A" "B" [("B", TableRow.mk "B" [Option.some 2] "A5")]

/-- C9: same-sheet name collision, universally: for every grid and every
name, the catalog entry under that name is the table contributed by the
LAST cell in row-major scan order whose validated header extracted a
non-empty table of that trimmed name. In particular, whenever exactly two
validated headers of the same trimmed name each produce a non-empty table,
the catalog keeps only the later header's table: the earlier one is
silently overwritten. The gridD conjuncts realize the premise concretely:
its two validated REVENUE headers contribute tableD1 then tableD2, and the
final catalog holds only tableD2. -/
theorem c9_same_sheet_collision :
    (∀ (g : GridView) (sn n : String),
      dictGet (processSheet g sn []) n =
        ((scanTables g sn).filter (fun td => td.name == n)).getLast?) ∧
    (∀ (g : GridView) (sn n : String) (td1 td2 : TableData),
      (scanTables g sn).filter (fun td => td.name == n) = [td1, td2] →
      dictGet (processSheet g sn []) n = Option.some td2) ∧
    (scanTables gridD.view "Sheet1").filter (fun td => td.name == "REVENUE") =
      [tableD1, tableD2] ∧
    processXlsxSheets [("Sheet1", gridD.view)] = [("REVENUE", tableD2)] := by
  have hgen : ∀ (g : GridView) (sn n : String),
      dictGet (processSheet g sn []) n =
        ((scanTables g sn).filter (fun td => td.name == n)).getLast? := by
    intro g sn n
    rw [processSheet_eq_insertAll, insertAll_getLast]
    cases h : ((scanTables g sn).filter (fun td => td.name == n)).getLast? with
    | none => rfl
    | some td => rfl
  refine ⟨hgen, ?_, by decide, by decide⟩
  intro g sn n td1 td2 h
  rw [hgen g sn n, h]
  rfl

/-- C9 instantiated: gridD satisfies the two-collision premise, and
applying the collision law yields that the catalog keeps only the later
table. -/
theorem c9_same_sheet_collision_witness :
    dictGet (processSheet gridD.view "Sheet1" []) "REVENUE" = Option.some tableD2 :=
  c9_same_sheet_collision.2.1 gridD.view "Sheet1" "REVENUE" tableD1 tableD2 (by decide)
